import Mathlib

/-!
Verification of the overland-flow simulation engine (SimulationEngine.cpp /
SimulationEngine.h) against its natural-language specification.

The engine state (grids of elevations `dem` and water depths `h`, outlet
bookkeeping, rainfall configuration, drainage accounting) is embedded as a
Lean structure.  Double-precision values are idealised as elements of a
linear ordered field (`ℚ` for executable instances, `ℝ` for the solver,
whose Manning fluxes use `Real.sqrt` and real exponentiation).  Machine
`int` casts from `double` are modelled by truncation toward zero.  Grids
are total functions from `(row, column)`; the modelled routines only ever
read cells inside the `nx × ny` rectangle, mirroring the C++ vectors.
-/

namespace HydroSpec

variable {α : Type} [LinearOrderedField α] [FloorRing α]

/-- Truncation toward zero: the semantics of a C++ cast from `double` to `int`. -/
def cppTrunc (x : α) : ℤ := if 0 ≤ x then ⌊x⌋ else ⌈x⌉

/-- Bounds test `0 <= i && i < nx && 0 <= j && j < ny` used throughout the source. -/
def inGrid (nx ny i j : ℤ) : Prop := 0 ≤ i ∧ i < nx ∧ 0 ≤ j ∧ j < ny

instance (nx ny i j : ℤ) : Decidable (inGrid nx ny i j) :=
  inferInstanceAs (Decidable (0 ≤ i ∧ i < nx ∧ 0 ≤ j ∧ j < ny))

/-- All cells of an `nx × ny` grid in row-major order, the order of every
`for (i...) for (j...)` double loop in the source. -/
def rowMajor (nx ny : ℤ) : List (ℤ × ℤ) :=
  (List.range nx.toNat).flatMap fun i =>
    (List.range ny.toNat).map fun j => ((i : ℤ), (j : ℤ))

/-- State of `SimulationEngine` (SimulationEngine.h).  GUI-only members
(`showGrid`, `gridInterval`, `showRulers`, `flowAccumulationGrid`) are
omitted: no routine modelled here reads them (`routeWaterToOutlets`
writes only `flowAccumulationGrid`; every statement that would write a
water depth inside it is commented out in the source). -/
structure Engine (α : Type) where
  nx : ℤ
  ny : ℤ
  resolution : α
  n_manning : α
  Ks : α
  min_depth : α
  totalTime : α
  time : α
  dt : α
  rainfallRate : α
  useTimeVaryingRainfall : Bool
  rainfallSchedule : List (α × α)
  outletRow : ℤ
  useManualOutlets : Bool
  outletPercentile : α
  manualOutletCells : List (ℤ × ℤ)
  outletCells : List ℤ
  dem : ℤ → ℤ → α
  h : ℤ → ℤ → α
  perOutletDrainage : List ((ℤ × ℤ) × α)
  drainageVolume : α
  drainageTimeSeries : List (α × α)

/-- Valid (non-no-data) boundary cells paired as `(elevation, 1-D index)`,
enumerated in row-major order; `computeOutletCellsByPercentile`, lines 415-429. -/
def boundaryCells (nx ny : ℤ) (dem : ℤ → ℤ → α) : List (α × ℤ) :=
  (rowMajor nx ny).filterMap fun c =>
    if (c.1 = 0 ∨ c.1 = nx - 1 ∨ c.2 = 0 ∨ c.2 = ny - 1) ∧ -999998 < dem c.1 c.2 then
      some (dem c.1 c.2, c.1 * ny + c.2)
    else none

/-- Lexicographic order on `(elevation, index)` pairs: the order used by
`std::sort` on `std::pair<double, int>`.  All indices are distinct, so the
sorted list is unique and ties in elevation break by 1-D index. -/
def pairLE (a b : α × ℤ) : Prop := a.1 < b.1 ∨ (a.1 = b.1 ∧ a.2 ≤ b.2)

instance : DecidableRel (@pairLE α _) :=
  fun a b => inferInstanceAs (Decidable (a.1 < b.1 ∨ (a.1 = b.1 ∧ a.2 ≤ b.2)))

/-- Automatic percentile-based outlet selection; `computeOutletCellsByPercentile`
(lines 409-471).  The literals `0.1` and the boundary-fraction cast follow the
source with `double` arithmetic idealised as exact field arithmetic; `(int)`
casts truncate toward zero.  The empty-boundary fallback scans every cell for
the strictly lowest valid elevation (first minimum in row-major order). -/
def computeOutletCellsByPercentile (nx ny : ℤ) (dem : ℤ → ℤ → α) (percentile : α) :
    List ℤ :=
  if nx ≤ 0 ∨ ny ≤ 0 then []
  else
    let bc := boundaryCells nx ny dem
    if bc = [] then
      match (rowMajor nx ny).foldl
          (fun best c =>
            if dem c.1 c.2 ≤ -999998 then best
            else
              match best with
              | none => some (dem c.1 c.2, c.1 * ny + c.2)
              | some b =>
                  if dem c.1 c.2 < b.1 then some (dem c.1 c.2, c.1 * ny + c.2) else b)
          none with
      | some b => [b.2]
      | none => []
    else
      let sorted := List.insertionSort pairLE bc
      let numOutlets0 : ℤ := max 1 (cppTrunc (percentile * (bc.length : α)))
      let numOutlets : ℤ :=
        max 1 (min numOutlets0 (min (cppTrunc ((bc.length : α) * (1 / 10))) 50))
      (sorted.take numOutlets.toNat).map Prod.snd

/-- Re-selection of outlets with the stored default percentile;
`computeDefaultAutomaticOutletCells` (lines 1481-1484). -/
def computeDefaultAutomaticOutletCells (e : Engine α) : Engine α :=
  { e with outletCells :=
      computeOutletCellsByPercentile e.nx e.ny e.dem e.outletPercentile }

/-- Manual outlet selection; `setManualOutletCells` (lines 286-313).  The
source keeps every in-bounds candidate (the elevation grid is never
consulted, so no-data cells pass) in input order and without removing
duplicates; if no candidate is in bounds it reverts to the automatic method. -/
def setManualOutletCells (e : Engine α) (cells : List (ℤ × ℤ)) : Engine α :=
  if cells = [] ∨ e.nx ≤ 0 ∨ e.ny ≤ 0 then e
  else
    let e1 := { e with manualOutletCells := cells, useManualOutlets := true }
    let kept := cells.filter fun p =>
      decide (0 ≤ p.1 ∧ p.1 < e.nx ∧ 0 ≤ p.2 ∧ p.2 < e.ny)
    let oc := kept.map fun p => p.1 * e.ny + p.2
    if oc = [] then
      computeDefaultAutomaticOutletCells { e1 with useManualOutlets := false }
    else { e1 with outletCells := oc }

/-- Comparison by timestamp used to model `std::sort` on the rainfall
schedule (comparator `a.first < b.first`; the sort is not stable, so any
permutation sorted by time is a faithful model of the result). -/
def schedLE (a b : α × α) : Prop := a.1 ≤ b.1

instance : DecidableRel (@schedLE α _) :=
  fun a b => inferInstanceAs (Decidable (a.1 ≤ b.1))

instance : IsTotal (α × α) (@schedLE α _) := ⟨fun a b => le_total a.1 b.1⟩

instance : IsTrans (α × α) (@schedLE α _) := ⟨fun _ _ _ hab hbc => le_trans hab hbc⟩

/-- Rainfall-schedule canonicalization; `setRainfallSchedule` (lines 478-499):
sort ascending by time, prepend a synthetic `(0, first rate)` entry when the
earliest time is positive, and fall back to `[(0, rainfallRate)]` when the
input is empty. -/
def setRainfallSchedule (rainfallRate : α) (schedule : List (α × α)) :
    List (α × α) :=
  let s := List.insertionSort schedLE schedule
  let s2 :=
    match s with
    | [] => s
    | p :: _ => if 0 < p.1 then (0, p.2) :: s else s
  if s2 = [] then [(0, rainfallRate)] else s2

/-- Scan of the schedule in `getCurrentRainfallRate`: keep updating the
current rate until the first entry with time strictly beyond `t`. -/
def rateLoop (t : α) : α → List (α × α) → α
  | cur, [] => cur
  | cur, p :: rest => if t < p.1 then cur else rateLoop t p.2 rest

/-- Rainfall-rate query; `getCurrentRainfallRate` (lines 501-523). -/
def getCurrentRainfallRate (useTV : Bool) (rate : α) (sched : List (α × α))
    (t : α) : α :=
  match useTV, sched with
  | false, _ => rate
  | true, [] => rate
  | true, p :: rest => rateLoop t p.2 (p :: rest)

/-- Conversion of the stored 1-D outlet indices back to in-bounds grid
coordinates; `getAutomaticOutletCells` (lines 1056-1072). -/
def getAutomaticOutletCells (e : Engine α) : List (ℤ × ℤ) :=
  e.outletCells.filterMap fun idx =>
    let i := idx / e.ny
    let j := idx % e.ny
    if inGrid e.nx e.ny i j then some (i, j) else none

/-- Insert-or-assign on an association list, modelling `QMap::operator[] = v`.
Key order is irrelevant to every property proved below. -/
def mapSet (key : ℤ × ℤ) (v : α) : List ((ℤ × ℤ) × α) → List ((ℤ × ℤ) × α)
  | [] => [(key, v)]
  | q :: rest => if q.1 = key then (key, v) :: rest else q :: mapSet key v rest

/-- Insert-default-then-add on an association list, modelling
`QMap::operator[] += v` (a missing key is value-initialised to 0). -/
def mapAdd (key : ℤ × ℤ) (v : α) : List ((ℤ × ℤ) × α) → List ((ℤ × ℤ) × α)
  | [] => [(key, v)]
  | q :: rest => if q.1 = key then (key, q.2 + v) :: rest else q :: mapAdd key v rest

/-- Sum of the values of an association list (total drained volume held in
`perOutletDrainage`). -/
def sumVals (m : List ((ℤ × ℤ) × α)) : α := (m.map Prod.snd).sum

/-- Outlet recovery at the start of `initSimulation` (lines 324-333): when
no outlet cells are stored, recompute the automatic default set. -/
def initOutletFallback (e : Engine α) : Engine α :=
  if e.outletCells = [] then computeDefaultAutomaticOutletCells e else e

/-- State reset of `initSimulation` (lines 351-369). -/
def initReset (e : Engine α) : Engine α :=
  { e with time := 0, dt := 1, drainageVolume := 0,
           h := fun _ _ => (0 : α),
           drainageTimeSeries := [], perOutletDrainage := [] }

/-- Default schedule entry of `initSimulation` (lines 371-374). -/
def initSchedule (e : Engine α) : Engine α :=
  if e.useTimeVaryingRainfall = true ∧ e.rainfallSchedule = [] then
    { e with rainfallSchedule := [(0, e.rainfallRate)] }
  else e

/-- Unconditional automatic recomputation of `initSimulation`
(lines 376-379). -/
def initOutlets (e : Engine α) : Engine α :=
  if e.useManualOutlets = false then computeDefaultAutomaticOutletCells e else e

/-- Per-outlet drainage seeding and initial time-series entry of
`initSimulation` (lines 381-402). -/
def initFinish (e : Engine α) : Engine α :=
  let pts := if e.useManualOutlets = true then e.manualOutletCells
             else getAutomaticOutletCells e
  { e with perOutletDrainage := pts.foldl (fun m p => mapSet p 0 m) [],
           drainageTimeSeries := [(0, 0)] }

/-- Simulation initialisation; `initSimulation` (lines 315-406), returning
`none` exactly where the source returns `false`.  The allocation try/catch
cannot fail in the model. -/
def initSimulation (e : Engine α) : Option (Engine α) :=
  if e.nx ≤ 0 ∨ e.ny ≤ 0 then none
  else
    let eA := initOutletFallback e
    if eA.outletCells = [] then none
    else if eA.resolution ≤ 0 then none
    else if eA.n_manning ≤ 0 then none
    else if eA.totalTime ≤ 0 then none
    else some (initFinish (initOutlets (initSchedule (initReset eA))))

/-- The eight neighbour offsets in the order of the
`for (di...) for (dj...)` loop of the depression-filling pass. -/
def neighborOffsets8 : List (ℤ × ℤ) :=
  [(-1, -1), (-1, 0), (-1, 1), (0, -1), (0, 1), (1, -1), (1, 0), (1, 1)]

/-- One neighbour scan of the depression-filling pass
(`routeWaterToOutlets`, lines 1100-1124): returns whether no valid
neighbour is strictly lower (`isDepression`) together with the least valid
neighbour elevation (`none` when no valid neighbour exists, standing for
the `DBL_MAX` initial value).  The C++ `break` only stops updates of
`lowestNeighbor` after `isDepression` is already false, where that value is
dead, so folding over all offsets is observationally identical. -/
def scanNeighbors (nx ny : ℤ) (g : ℤ → ℤ → α) (i j : ℤ) : Bool × Option α :=
  neighborOffsets8.foldl
    (fun st d =>
      let ni := i + d.1
      let nj := j + d.2
      if ni < 0 ∨ nx ≤ ni ∨ nj < 0 ∨ ny ≤ nj ∨ g ni nj ≤ -999998 then st
      else if g ni nj < g i j then (false, st.2)
      else
        (st.1,
          some (match st.2 with
                | none => g ni nj
                | some m => min m (g ni nj))))
    (true, none)

/-- Interior cells `1 ≤ i ≤ nx-2`, `1 ≤ j ≤ ny-2` in row-major order. -/
def interiorCells (nx ny : ℤ) : List (ℤ × ℤ) :=
  (List.range (nx - 2).toNat).flatMap fun a =>
    (List.range (ny - 2).toNat).map fun b => ((1 + a : ℤ), (1 + b : ℤ))

/-- One in-place sweep of the depression-filling loop
(`routeWaterToOutlets`, lines 1093-1137): sequentially, for every interior
valid cell whose valid neighbours are all not strictly lower, set it to the
lowest neighbour elevation minus `0.01`; the Boolean records whether any
cell was written (`depressionsFilled = false`). -/
def fillPass (nx ny : ℤ) (g0 : ℤ → ℤ → α) : (ℤ → ℤ → α) × Bool :=
  (interiorCells nx ny).foldl
    (fun st c =>
      let g := st.1
      if g c.1 c.2 ≤ -999998 then st
      else
        match scanNeighbors nx ny g c.1 c.2 with
        | (true, some low) =>
            (fun i' j' => if i' = c.1 ∧ j' = c.2 then low - 1 / 100 else g i' j', true)
        | _ => st)
    (g0, false)

/-- The bounded depression-filling loop (`routeWaterToOutlets`,
lines 1086-1142): run passes while the previous pass changed a cell and
fewer than `MAX_FILL_ITERATIONS = 3` passes have run; also returns the
number of passes executed (`fillIterations`). -/
def fillDepressionsAux (nx ny : ℤ) (g : ℤ → ℤ → α) (iters : ℕ) :
    ℕ → (ℤ → ℤ → α) × ℕ
  | 0 => (g, iters)
  | fuel + 1 =>
    let res := fillPass nx ny g
    if res.2 = true then fillDepressionsAux nx ny res.1 (iters + 1) fuel
    else (res.1, iters + 1)

/-- Depression filling with the source bound of three iterations. -/
def fillDepressions (nx ny : ℤ) (g : ℤ → ℤ → α) : (ℤ → ℤ → α) × ℕ :=
  fillDepressionsAux nx ny g 0 3

/-- Row offsets of the four cardinal directions N, E, S, W (`di` in
`stepSimulation`). -/
def di4 : Fin 4 → ℤ
  | 0 => -1
  | 1 => 0
  | 2 => 1
  | 3 => 0

/-- Column offsets of the four cardinal directions N, E, S, W (`dj` in
`stepSimulation`). -/
def dj4 : Fin 4 → ℤ
  | 0 => 0
  | 1 => 1
  | 2 => 0
  | 3 => -1

/-- Rainfall/infiltration forcing sweep of `stepSimulation` (lines 556-567):
no-data cells are zeroed, all others receive `(rate − Ks)·dt` clamped at 0. -/
def applyForcing (e : Engine α) (rate : α) : ℤ → ℤ → α :=
  fun i j =>
    if inGrid e.nx e.ny i j then
      if e.dem i j ≤ -999998 then 0
      else max 0 (e.h i j + (rate - e.Ks) * e.dt)
    else e.h i j

/-- Rainfall rate used by one step (`stepSimulation`, line 531). -/
def stepRate (e : Engine α) : α :=
  if e.useTimeVaryingRainfall = true then
    getCurrentRainfallRate e.useTimeVaryingRainfall e.rainfallRate e.rainfallSchedule e.time
  else e.rainfallRate

/-- Total system water after forcing (`stepSimulation`, lines 569-578). -/
def totalSystemWater (e : Engine α) (hg : ℤ → ℤ → α) : α :=
  ∑ i ∈ Finset.Ico 0 e.nx, ∑ j ∈ Finset.Ico 0 e.ny,
    if -999998 < e.dem i j then hg i j * (e.resolution * e.resolution) else 0

/-- Potential outflow from cell `(i, j)` in direction `k` by Manning's
formula; first pass of `stepSimulation` (lines 601-627). -/
noncomputable def qOut (e : Engine ℝ) (hg : ℤ → ℤ → ℝ) (i j : ℤ) (k : Fin 4) : ℝ :=
  if ¬ inGrid e.nx e.ny i j then 0
  else if e.dem i j ≤ -999998 then 0
  else if hg i j < e.min_depth then 0
  else
    let ni := i + di4 k
    let nj := j + dj4 k
    if ¬ inGrid e.nx e.ny ni nj ∨ e.dem ni nj ≤ -999998 then 0
    else
      let dH := (hg i j + e.dem i j) - (hg ni nj + e.dem ni nj)
      if 0 < dH then
        hg i j * e.resolution * hg i j ^ ((2 : ℝ) / 3) *
          Real.sqrt (dH / e.resolution) / e.n_manning
      else 0

/-- Total potential outflow `Q_total_out[i][j]` of the first pass. -/
noncomputable def qTotal (e : Engine ℝ) (hg : ℤ → ℤ → ℝ) (i j : ℤ) : ℝ :=
  ∑ k : Fin 4, qOut e hg i j k

/-- Mass-conservation scale factor of the second pass (`stepSimulation`,
lines 636-641 and 654-658): divide only when the discharged volume would
exceed the stored volume and the total outflow is strictly positive. -/
noncomputable def cFactor (e : Engine ℝ) (hg : ℤ → ℤ → ℝ) (i j : ℤ) : ℝ :=
  if hg i j * (e.resolution * e.resolution) < qTotal e hg i j * e.dt ∧
      0 < qTotal e hg i j then
    hg i j * (e.resolution * e.resolution) / (qTotal e hg i j * e.dt)
  else 1

/-- Scaled inflow into `(i, j)` from its neighbour opposite direction `k`
(`stepSimulation`, lines 647-661). -/
noncomputable def inflowTerm (e : Engine ℝ) (hg : ℤ → ℤ → ℝ) (i j : ℤ) (k : Fin 4) : ℝ :=
  if inGrid e.nx e.ny (i - di4 k) (j - dj4 k) ∧
      -999998 < e.dem (i - di4 k) (j - dj4 k) then
    qOut e hg (i - di4 k) (j - dj4 k) (k + 2) *
      cFactor e hg (i - di4 k) (j - dj4 k) * e.dt
  else 0

/-- Net depth change `delta_h[i][j]` of the second pass (`stepSimulation`,
lines 629-664). -/
noncomputable def deltaH (e : Engine ℝ) (hg : ℤ → ℤ → ℝ) (i j : ℤ) : ℝ :=
  if e.dem i j ≤ -999998 then 0
  else
    (-(qTotal e hg i j * cFactor e hg i j * e.dt) + ∑ k : Fin 4, inflowTerm e hg i j k) /
      (e.resolution * e.resolution)

/-- Third pass of `stepSimulation` (lines 666-673): apply `delta_h` and
clamp negatives to zero on every valid cell. -/
noncomputable def hAfterFlux (e : Engine ℝ) (hg : ℤ → ℤ → ℝ) : ℤ → ℤ → ℝ :=
  fun i j =>
    if inGrid e.nx e.ny i j ∧ -999998 < e.dem i j then max 0 (hg i j + deltaH e hg i j)
    else hg i j

/-- Adaptive drainage factor (`stepSimulation`, lines 682-690). -/
def drainageFactor (e : Engine α) (tsw : α) : α :=
  (if 1 < tsw then 1 + min 2 ((tsw - 1) / 10) else 1) *
    (7 / 10 + 3 / 10 * min 1 (e.time / 120))

/-- State threaded through the outlet-drainage loop: the depth grid, the
step's accumulated `outflow`, and the per-outlet drainage map. -/
structure DrainState (α : Type) where
  h : ℤ → ℤ → α
  outflow : α
  perOutlet : List ((ℤ × ℤ) × α)

/-- Volume drained from one outlet cell of depth `h_i` in one step
(`stepSimulation`, lines 705-710): Manning outflow over the assumed slope
`S = 0.2` boosted by the adaptive factor, times `dt`, capped at 95% of the
stored volume. -/
noncomputable def drainVol (e : Engine ℝ) (dFactor h_i : ℝ) : ℝ :=
  let Q := 2.5 * dFactor * (h_i * e.resolution * h_i ^ ((2 : ℝ) / 3) *
    Real.sqrt 0.2) / e.n_manning
  let vol0 := Q * e.dt
  let availableVolume := h_i * (e.resolution * e.resolution)
  if availableVolume * 0.95 < vol0 then availableVolume * 0.95 else vol0

/-- One iteration of the outlet-drainage loop (`stepSimulation`,
lines 694-719): for a valid outlet cell wetter than `min_depth`, drain
`drainVol` and book it globally and per outlet. -/
noncomputable def drainStep (e : Engine ℝ) (dFactor : ℝ) (st : DrainState ℝ)
    (idx : ℤ) : DrainState ℝ :=
  let i := idx / e.ny
  let j := idx % e.ny
  if inGrid e.nx e.ny i j ∧ -999998 < e.dem i j then
    let h_i := st.h i j
    if e.min_depth < h_i then
      let vol := drainVol e dFactor h_i
      let cellArea := e.resolution * e.resolution
      { h := fun i' j' => if i' = i ∧ j' = j then st.h i' j' - vol / cellArea
             else st.h i' j',
        outflow := st.outflow + vol,
        perOutlet := mapAdd (i, j) vol st.perOutlet }
    else st
  else st

/-- Outcome of the flux sweeps followed by the outlet-drainage loop of one
step.  `routeWaterToOutlets` runs between the two in the source but writes
only the flow-accumulation visualization raster (its water writes are all
commented out), so it has no effect on this state. -/
noncomputable def stepDrain (e : Engine ℝ) : DrainState ℝ :=
  e.outletCells.foldl
    (drainStep e (drainageFactor e (totalSystemWater e (applyForcing e (stepRate e)))))
    { h := hAfterFlux e (applyForcing e (stepRate e)),
      outflow := 0,
      perOutlet := e.perOutletDrainage }

/-- One simulation step; `stepSimulation` (lines 525-730): forcing, flux
computation with mass-conservative scaling, depth update, outlet drainage,
drainage bookkeeping, time-series append and time advance. -/
noncomputable def stepSimulation (e : Engine ℝ) : Engine ℝ :=
  if e.nx ≤ 0 ∨ e.ny ≤ 0 then e
  else
    { e with
        h := (stepDrain e).h,
        perOutletDrainage := (stepDrain e).perOutlet,
        drainageVolume := e.drainageVolume + (stepDrain e).outflow,
        drainageTimeSeries :=
          e.drainageTimeSeries ++ [(e.time + e.dt, e.drainageVolume + (stepDrain e).outflow)],
        time := e.time + e.dt }

/-- Engine states reachable through a successful initialisation followed by
finitely many simulation steps.  Successful loads land in a subset of the
pre-initialisation states quantified over here, so properties of all
reachable states in this sense cover every state reachable after a
successful load and initialisation. -/
def Reachable (e : Engine ℝ) : Prop :=
  ∃ (e0 e1 : Engine ℝ) (n : ℕ), initSimulation e0 = some e1 ∧ e = stepSimulation^[n] e1

/-- Engine state right after construction (`SimulationEngine` constructor,
lines 20-39), over `ℚ` for executable instances: an empty 0 × 0 grid with
all default parameters. -/
def baseEngine : Engine ℚ :=
  { nx := 0, ny := 0, resolution := 1 / 4, n_manning := 3 / 100, Ks := 1 / 1000000,
    min_depth := 1 / 100000, totalTime := 1800, time := 0, dt := 1, rainfallRate := 0,
    useTimeVaryingRainfall := false, rainfallSchedule := [], outletRow := 0,
    useManualOutlets := false, outletPercentile := 1 / 10, manualOutletCells := [],
    outletCells := [], dem := fun _ _ => 0, h := fun _ _ => 0,
    perOutletDrainage := [], drainageVolume := 0, drainageTimeSeries := [] }

/-- A loaded 2 × 2 grid whose corner cell `(0, 0)` is a no-data cell. -/
def engineNoData : Engine ℚ :=
  { baseEngine with nx := 2, ny := 2,
                    dem := fun i j => if i = 0 ∧ j = 0 then -999999 else 0 }

/-- Depth field of scenario S2: a single wet cell `h[5][5] = 0.1` on a dry
grid. -/
noncomputable def hDrop : ℤ → ℤ → ℝ := fun i j => if i = 5 ∧ j = 5 then 1 / 10 else 0

/-- Scenario S2 of the specification: a flat 10 × 10 grid at resolution 1
with default parameters, no rainfall, no infiltration, the automatic
outlet set of the flat grid (the three lowest-index boundary cells), and a
single wet cell `h[5][5] = 0.1`. -/
noncomputable def engineDrop : Engine ℝ :=
  { nx := 10, ny := 10, resolution := 1, n_manning := 3 / 100, Ks := 0,
    min_depth := 1 / 100000, totalTime := 10, time := 0, dt := 1, rainfallRate := 0,
    useTimeVaryingRainfall := false, rainfallSchedule := [], outletRow := 9,
    useManualOutlets := false, outletPercentile := 1 / 10, manualOutletCells := [],
    outletCells := [0, 1, 2],
    dem := fun _ _ => 0,
    h := hDrop,
    perOutletDrainage := [((0, 0), 0), ((0, 1), 0), ((0, 2), 0)],
    drainageVolume := 0, drainageTimeSeries := [(0, 0)] }

/-- Manning outflow of the S2 center cell into one neighbour:
`A·R^(2/3)·√S / n` with `h = 0.1`, `resolution = 1`, head difference 0.1. -/
noncomputable def qC : ℝ :=
  1 / 10 * 1 * (1 / 10 : ℝ) ^ ((2 : ℝ) / 3) * Real.sqrt (1 / 10 / 1) / (3 / 100)

/-- Expected depth field after one step of scenario S2: the center cell has
emptied and each of its four neighbours holds depth `0.025`. -/
noncomputable def hAfter : ℤ → ℤ → ℝ := fun i j =>
  if (i = 4 ∧ j = 5) ∨ (i = 6 ∧ j = 5) ∨ (i = 5 ∧ j = 4) ∨ (i = 5 ∧ j = 6) then 1 / 40
  else 0

/-- A 1 × 1 pre-initialisation state with one manual outlet, used to exhibit
a concrete successful initialisation. -/
noncomputable def engineInit : Engine ℝ :=
  { nx := 1, ny := 1, resolution := 1, n_manning := 1, Ks := 0,
    min_depth := 1 / 100000, totalTime := 1, time := 0, dt := 1, rainfallRate := 0,
    useTimeVaryingRainfall := false, rainfallSchedule := [], outletRow := 0,
    useManualOutlets := true, outletPercentile := 1 / 10,
    manualOutletCells := [(0, 0)], outletCells := [0],
    dem := fun _ _ => 0, h := fun _ _ => 0,
    perOutletDrainage := [], drainageVolume := 0, drainageTimeSeries := [] }

/-- The state `initSimulation` produces from `engineInit`. -/
noncomputable def engineInitDone : Engine ℝ :=
  { engineInit with perOutletDrainage := [((0, 0), 0)], drainageTimeSeries := [(0, 0)] }

/-! ## Helper lemmas -/

theorem qOut_eq_zero_of_h_eq_zero (e : Engine ℝ) (hg : ℤ → ℤ → ℝ) (i j : ℤ)
    (h0 : hg i j = 0) (k : Fin 4) : qOut e hg i j k = 0 := by
  simp only [qOut]
  split_ifs <;> simp [h0]

/-- C10: in the second pass of every step, the scale factor is computed by
division only under the source guard (discharged volume would exceed the
stored volume and the total outflow is strictly positive); when the guard
holds the divisor `Q_total · dt` is strictly positive, and otherwise —
in particular on every completely dry cell — the factor is 1. -/
theorem scale_factor_division_guarded (e : Engine ℝ) (hg : ℤ → ℤ → ℝ) (i j : ℤ)
    (hdt : 0 < e.dt) :
    (¬ (hg i j * (e.resolution * e.resolution) < qTotal e hg i j * e.dt ∧
          0 < qTotal e hg i j) →
        cFactor e hg i j = 1) ∧
    ((hg i j * (e.resolution * e.resolution) < qTotal e hg i j * e.dt ∧
          0 < qTotal e hg i j) →
        0 < qTotal e hg i j * e.dt ∧
        cFactor e hg i j =
          hg i j * (e.resolution * e.resolution) / (qTotal e hg i j * e.dt)) ∧
    (hg i j = 0 → cFactor e hg i j = 1) := by
  refine ⟨fun hn => ?_, fun hy => ⟨mul_pos hy.2 hdt, ?_⟩, fun h0 => ?_⟩
  · unfold cFactor
    rw [if_neg hn]
  · unfold cFactor
    rw [if_pos hy]
  · have hq : qTotal e hg i j = 0 :=
      Finset.sum_eq_zero fun k _ => qOut_eq_zero_of_h_eq_zero e hg i j h0 k
    unfold cFactor
    rw [if_neg]
    simp [hq]

theorem scale_factor_division_guarded_witness :
    0 < engineInit.dt ∧ cFactor engineInit (fun _ _ => 0) 0 0 = 1 := by
  have hdt : 0 < engineInit.dt := by norm_num [engineInit]
  exact ⟨hdt, (scale_factor_division_guarded engineInit (fun _ _ => 0) 0 0 hdt).2.2 rfl⟩

theorem applyForcing_nonneg (e : Engine α) (rate : α) (hh : ∀ i j, 0 ≤ e.h i j)
    (i j : ℤ) : 0 ≤ applyForcing e rate i j := by
  unfold applyForcing
  split_ifs
  · exact le_refl 0
  · exact le_max_left 0 _
  · exact hh i j

theorem hAfterFlux_nonneg (e : Engine ℝ) (hg : ℤ → ℤ → ℝ) (hh : ∀ i j, 0 ≤ hg i j)
    (i j : ℤ) : 0 ≤ hAfterFlux e hg i j := by
  unfold hAfterFlux
  split_ifs
  · exact le_max_left 0 _
  · exact hh i j

theorem drainVol_le (e : Engine ℝ) (f h_i : ℝ) :
    drainVol e f h_i ≤ h_i * (e.resolution * e.resolution) * 0.95 := by
  unfold drainVol
  dsimp only
  split_ifs with hcap
  · exact le_refl _
  · exact le_of_not_lt hcap

theorem drainStep_h_nonneg (e : Engine ℝ) (f : ℝ) (st : DrainState ℝ) (idx : ℤ)
    (hres : 0 < e.resolution) (hh : ∀ i j, 0 ≤ st.h i j) :
    ∀ i j, 0 ≤ (drainStep e f st idx).h i j := by
  intro i j
  have harea : 0 < e.resolution * e.resolution := mul_pos hres hres
  simp only [drainStep]
  split_ifs with h1 h2
  · dsimp only
    split_ifs with h3
    · obtain ⟨hi, hj⟩ := h3
      subst hi; subst hj
      rw [sub_nonneg, div_le_iff harea]
      calc drainVol e f (st.h (idx / e.ny) (idx % e.ny))
          ≤ st.h (idx / e.ny) (idx % e.ny) * (e.resolution * e.resolution) * 0.95 :=
            drainVol_le e f _
        _ ≤ st.h (idx / e.ny) (idx % e.ny) * (e.resolution * e.resolution) :=
            mul_le_of_le_one_right (mul_nonneg (hh _ _) harea.le) (by norm_num)
    · exact hh i j
  · exact hh i j
  · exact hh i j

theorem foldl_drainStep_h_nonneg (e : Engine ℝ) (f : ℝ) (hres : 0 < e.resolution) :
    ∀ (l : List ℤ) (st : DrainState ℝ), (∀ i j, 0 ≤ st.h i j) →
      ∀ i j, 0 ≤ (l.foldl (drainStep e f) st).h i j := by
  intro l
  induction l with
  | nil => intro st hst i j; exact hst i j
  | cons a t ih =>
      intro st hst i j
      exact ih (drainStep e f st a) (drainStep_h_nonneg e f st a hres hst) i j

theorem sumVals_cons (q : (ℤ × ℤ) × α) (m : List ((ℤ × ℤ) × α)) :
    sumVals (q :: m) = q.2 + sumVals m := by
  simp [sumVals]

theorem sumVals_mapAdd (k : ℤ × ℤ) (v : α) (m : List ((ℤ × ℤ) × α)) :
    sumVals (mapAdd k v m) = sumVals m + v := by
  induction m with
  | nil => simp [mapAdd, sumVals]
  | cons q t ih =>
      unfold mapAdd
      split_ifs with hq
      · rw [sumVals_cons, sumVals_cons]
        ring
      · rw [sumVals_cons, sumVals_cons, ih]
        ring

theorem drainStep_sum (e : Engine ℝ) (f : ℝ) (st : DrainState ℝ) (idx : ℤ) :
    sumVals (drainStep e f st idx).perOutlet - (drainStep e f st idx).outflow =
      sumVals st.perOutlet - st.outflow := by
  simp only [drainStep]
  split_ifs
  · dsimp only
    rw [sumVals_mapAdd]
    ring
  · rfl
  · rfl

theorem foldl_drainStep_sum (e : Engine ℝ) (f : ℝ) :
    ∀ (l : List ℤ) (st : DrainState ℝ),
      sumVals (l.foldl (drainStep e f) st).perOutlet -
        (l.foldl (drainStep e f) st).outflow = sumVals st.perOutlet - st.outflow := by
  intro l
  induction l with
  | nil => intro st; rfl
  | cons a t ih =>
      intro st
      rw [List.foldl_cons, ih (drainStep e f st a), drainStep_sum]

theorem mapSet_zero_values (p : ℤ × ℤ) (m : List ((ℤ × ℤ) × α))
    (hm : ∀ v ∈ m.map Prod.snd, v = 0) :
    ∀ v ∈ (mapSet p 0 m).map Prod.snd, v = 0 := by
  induction m with
  | nil => simp [mapSet]
  | cons q t ih =>
      unfold mapSet
      have hq : q.2 = 0 := hm q.2 (by simp)
      have ht : ∀ v ∈ t.map Prod.snd, v = 0 := fun v hv => hm v (by simp [hv])
      split_ifs
      · intro v hv
        rcases (by simpa using hv : v = 0 ∨ v ∈ t.map Prod.snd) with h | h
        · exact h
        · exact ht v h
      · intro v hv
        rcases (by simpa using hv : v = q.2 ∨ v ∈ (mapSet p 0 t).map Prod.snd) with h | h
        · rw [h, hq]
        · exact ih ht v h

theorem foldl_mapSet_zero_values (pts : List (ℤ × ℤ)) :
    ∀ (m : List ((ℤ × ℤ) × α)), (∀ v ∈ m.map Prod.snd, v = 0) →
      ∀ v ∈ (pts.foldl (fun m p => mapSet p 0 m) m).map Prod.snd, v = 0 := by
  induction pts with
  | nil => intro m hm; exact hm
  | cons p t ih =>
      intro m hm
      exact ih (mapSet p 0 m) (mapSet_zero_values p m hm)

theorem sumVals_eq_zero (m : List ((ℤ × ℤ) × α))
    (hm : ∀ v ∈ m.map Prod.snd, v = 0) : sumVals m = 0 :=
  List.sum_eq_zero hm

theorem initFinish_perOutlet_zero (e : Engine α) :
    ∀ v ∈ (initFinish e).perOutletDrainage.map Prod.snd, v = 0 := by
  unfold initFinish
  exact foldl_mapSet_zero_values _ [] (by simp)

theorem initStages_h (e : Engine α) :
    (initFinish (initOutlets (initSchedule (initReset e)))).h = fun _ _ => (0 : α) := by
  unfold initFinish initOutlets initSchedule initReset computeDefaultAutomaticOutletCells
  split_ifs <;> rfl

theorem initStages_resolution (e : Engine α) :
    (initFinish (initOutlets (initSchedule (initReset e)))).resolution = e.resolution := by
  unfold initFinish initOutlets initSchedule initReset computeDefaultAutomaticOutletCells
  split_ifs <;> rfl

theorem initStages_time (e : Engine α) :
    (initFinish (initOutlets (initSchedule (initReset e)))).time = 0 := by
  unfold initFinish initOutlets initSchedule initReset computeDefaultAutomaticOutletCells
  split_ifs <;> rfl

theorem initStages_drainageVolume (e : Engine α) :
    (initFinish (initOutlets (initSchedule (initReset e)))).drainageVolume = 0 := by
  unfold initFinish initOutlets initSchedule initReset computeDefaultAutomaticOutletCells
  split_ifs <;> rfl

theorem initStages_series (e : Engine α) :
    (initFinish (initOutlets (initSchedule (initReset e)))).drainageTimeSeries =
      [(0, 0)] := by
  unfold initFinish initOutlets initSchedule initReset computeDefaultAutomaticOutletCells
  split_ifs <;> rfl

theorem initOutletFallback_resolution (e : Engine α) :
    (initOutletFallback e).resolution = e.resolution := by
  unfold initOutletFallback computeDefaultAutomaticOutletCells
  split_ifs <;> rfl

theorem initSimulation_eq (e : Engine α) {e1 : Engine α}
    (hinit : initSimulation e = some e1) :
    e1 = initFinish (initOutlets (initSchedule (initReset (initOutletFallback e)))) ∧
    ¬ (initOutletFallback e).resolution ≤ 0 := by
  simp only [initSimulation] at hinit
  split_ifs at hinit with h1 h2 h3 h4 h5
  exact ⟨(Option.some.inj hinit).symm, h3⟩

theorem stepSimulation_resolution (e : Engine ℝ) :
    (stepSimulation e).resolution = e.resolution := by
  unfold stepSimulation
  split <;> rfl

theorem stepSimulation_h_nonneg (e : Engine ℝ) (hres : 0 < e.resolution)
    (hh : ∀ i j, 0 ≤ e.h i j) : ∀ i j, 0 ≤ (stepSimulation e).h i j := by
  intro i j
  by_cases hc : e.nx ≤ 0 ∨ e.ny ≤ 0
  · simp only [stepSimulation, if_pos hc]
    exact hh i j
  · simp only [stepSimulation, if_neg hc]
    show 0 ≤ (stepDrain e).h i j
    unfold stepDrain
    exact foldl_drainStep_h_nonneg e _ hres _ _
      (fun i' j' => hAfterFlux_nonneg e _
        (fun i'' j'' => applyForcing_nonneg e _ hh i'' j'') i' j') i j

theorem stepSimulation_drain_invariants (e : Engine ℝ)
    (hsum : e.drainageVolume = sumVals e.perOutletDrainage)
    (hlast : e.drainageTimeSeries.getLast? = some (e.time, e.drainageVolume)) :
    (stepSimulation e).drainageVolume = sumVals (stepSimulation e).perOutletDrainage ∧
    (stepSimulation e).drainageTimeSeries.getLast? =
      some ((stepSimulation e).time, (stepSimulation e).drainageVolume) := by
  by_cases hc : e.nx ≤ 0 ∨ e.ny ≤ 0
  · simp only [stepSimulation, if_pos hc]
    exact ⟨hsum, hlast⟩
  · simp only [stepSimulation, if_neg hc]
    constructor
    · show e.drainageVolume + (stepDrain e).outflow = sumVals (stepDrain e).perOutlet
      have hfold := foldl_drainStep_sum e
        (drainageFactor e (totalSystemWater e (applyForcing e (stepRate e))))
        e.outletCells
        { h := hAfterFlux e (applyForcing e (stepRate e)), outflow := 0,
          perOutlet := e.perOutletDrainage }
      unfold stepDrain
      simp only [sub_zero] at hfold
      linarith [hfold]
    · exact List.getLast?_concat _

theorem reachable_invariants (e : Engine ℝ) (hr : Reachable e) :
    (∀ i j, 0 ≤ e.h i j) ∧ 0 < e.resolution ∧
    e.drainageVolume = sumVals e.perOutletDrainage ∧
    e.drainageTimeSeries.getLast? = some (e.time, e.drainageVolume) := by
  obtain ⟨e0, e1, n, hinit, rfl⟩ := hr
  induction n with
  | zero =>
      simp only [Function.iterate_zero, id]
      obtain ⟨he1, hres⟩ := initSimulation_eq e0 hinit
      subst he1
      refine ⟨?_, ?_, ?_, ?_⟩
      · intro i j
        rw [initStages_h]
      · rw [initStages_resolution]
        exact not_le.mp hres
      · rw [initStages_drainageVolume,
          sumVals_eq_zero _ (initFinish_perOutlet_zero _)]
      · rw [initStages_series, initStages_time, initStages_drainageVolume]
        rfl
  | succ n ih =>
      rw [Function.iterate_succ_apply']
      obtain ⟨ih1, ih2, ih3, ih4⟩ := ih
      have hd := stepSimulation_drain_invariants _ ih3 ih4
      refine ⟨stepSimulation_h_nonneg _ ih2 ih1, ?_, hd.1, hd.2⟩
      rw [stepSimulation_resolution]
      exact ih2

theorem initSimulation_engineInit : initSimulation engineInit = some engineInitDone := by
  simp only [initSimulation, initOutletFallback, initReset, initSchedule, initOutlets,
    initFinish, computeDefaultAutomaticOutletCells, getAutomaticOutletCells,
    engineInit, engineInitDone]
  norm_num [mapSet, List.foldl]

/-- C1: for every engine state reachable through a successful
initialisation (which covers every state reachable after a successful load
and initialisation) and for every execution of one simulation step —
forcing, flux computation with mass-conservative scaling, depth update and
outlet drainage — every cell's water depth is non-negative when the step
completes. -/
theorem step_preserves_nonneg_depth (e : Engine ℝ) (hr : Reachable e) :
    ∀ i j, 0 ≤ (stepSimulation e).h i j := by
  obtain ⟨hh, hres, -, -⟩ := reachable_invariants e hr
  exact stepSimulation_h_nonneg e hres hh

theorem step_preserves_nonneg_depth_witness :
    0 ≤ (stepSimulation engineInitDone).h 0 0 :=
  step_preserves_nonneg_depth engineInitDone
    ⟨engineInit, engineInitDone, 0, initSimulation_engineInit, rfl⟩ 0 0

/-- C2: after initialisation and after every completed step, the recorded
cumulative drained volume equals the sum over all outlets of the
per-outlet drained volumes — exactly, since double arithmetic is idealised
as real arithmetic — and the newest recorded time-series entry carries that
cumulative volume. -/
theorem drainage_cumulative_agreement (e : Engine ℝ) (hr : Reachable e) :
    e.drainageVolume = sumVals e.perOutletDrainage ∧
    e.drainageTimeSeries.getLast? = some (e.time, e.drainageVolume) := by
  obtain ⟨-, -, h3, h4⟩ := reachable_invariants e hr
  exact ⟨h3, h4⟩

theorem drainage_cumulative_agreement_witness :
    engineInitDone.drainageVolume = sumVals engineInitDone.perOutletDrainage ∧
    engineInitDone.drainageTimeSeries.getLast? =
      some (engineInitDone.time, engineInitDone.drainageVolume) :=
  drainage_cumulative_agreement engineInitDone
    ⟨engineInit, engineInitDone, 0, initSimulation_engineInit, rfl⟩

theorem setRainfallSchedule_cases (rate : α) (L : List (α × α)) :
    (L = [] ∧ setRainfallSchedule rate L = [(0, rate)]) ∨
    (∃ p t, List.insertionSort (@schedLE α _) L = p :: t ∧
      ((0 < p.1 ∧ setRainfallSchedule rate L = (0, p.2) :: p :: t) ∨
       (¬ 0 < p.1 ∧ setRainfallSchedule rate L = p :: t))) := by
  cases hL : List.insertionSort (@schedLE α _) L with
  | nil =>
      left
      have hperm := List.perm_insertionSort (@schedLE α _) L
      rw [hL] at hperm
      have hL0 : L = [] := (List.perm_nil.mp hperm.symm)
      refine ⟨hL0, ?_⟩
      subst hL0
      simp [setRainfallSchedule]
  | cons p t =>
      right
      refine ⟨p, t, rfl, ?_⟩
      by_cases hp : 0 < p.1
      · left
        refine ⟨hp, ?_⟩
        unfold setRainfallSchedule
        rw [hL]
        dsimp only
        rw [if_pos hp, if_neg (by simp)]
      · right
        refine ⟨hp, ?_⟩
        unfold setRainfallSchedule
        rw [hL]
        dsimp only
        rw [if_neg hp, if_neg (by simp)]

/-- C7 (amended): after `set_rainfall_schedule(L)` the stored schedule is
sorted ascending by time, and the synthetic `(0, first.rate)` entry is
prepended exactly when the earliest entry's time is strictly positive;
consequently the first stored entry has time 0 whenever no input entry has
a negative time.  The unamended claim — first entry time 0 for every input
list — fails for inputs with negative times (see the counterexample),
since the source only prepends when the earliest time is `> 0`. -/
theorem schedule_canonicalization (rate : α) (L : List (α × α)) :
    List.Pairwise (@schedLE α _) (setRainfallSchedule rate L) ∧
    ((∀ p ∈ L, 0 ≤ p.1) →
      (setRainfallSchedule rate L).head?.map Prod.fst = some 0) := by
  have hs := List.sorted_insertionSort (@schedLE α _) L
  rcases setRainfallSchedule_cases rate L with ⟨hL0, heq⟩ | ⟨p, t, hL, hcase⟩
  · rw [heq]
    exact ⟨List.pairwise_singleton _ _, fun _ => by simp⟩
  · rw [hL] at hs
    obtain ⟨hhead, htail⟩ := List.pairwise_cons.mp hs
    rcases hcase with ⟨hp, heq⟩ | ⟨hp, heq⟩
    · rw [heq]
      constructor
      · refine List.Pairwise.cons ?_ hs
        intro q hq
        rcases List.mem_cons.mp hq with h | h
        · subst h
          exact le_of_lt hp
        · exact le_of_lt (lt_of_lt_of_le hp (hhead q h))
      · intro _
        simp
    · rw [heq]
      refine ⟨hs, fun hnn => ?_⟩
      have hpL : p ∈ L := by
        have hperm := List.perm_insertionSort (@schedLE α _) L
        exact hperm.subset (by rw [hL]; exact List.mem_cons_self p t)
      have h0 : p.1 = 0 := le_antisymm (not_lt.mp hp) (hnn p hpL)
      simp [h0]

theorem schedule_canonicalization_witness :
    List.Pairwise (@schedLE ℚ _) (setRainfallSchedule (0 : ℚ) [(3, 1)]) ∧
    (setRainfallSchedule (0 : ℚ) [(3, 1)]).head?.map Prod.fst = some 0 :=
  ⟨(schedule_canonicalization (0 : ℚ) [(3, 1)]).1,
   (schedule_canonicalization (0 : ℚ) [(3, 1)]).2 (by decide)⟩

theorem schedule_canonicalization_counterexample :
    (setRainfallSchedule (5 : ℚ) [(-1, 2)]).head? = some (-1, 2) ∧
    ¬ ((-1 : ℚ) = 0) := by
  constructor
  · with_unfolding_all rfl
  · decide

theorem rateLoop_eq (t : α) :
    ∀ (l : List (α × α)) (cur : α), List.Pairwise (@schedLE α _) l →
      rateLoop t cur l =
        (match (l.filter fun q => decide (q.1 ≤ t)).getLast? with
         | none => cur
         | some q => q.2) := by
  intro l
  induction l with
  | nil => intro cur _; rfl
  | cons p rest ih =>
      intro cur hsort
      obtain ⟨hhead, htail⟩ := List.pairwise_cons.mp hsort
      unfold rateLoop
      by_cases hp : t < p.1
      · rw [if_pos hp]
        have hfilter : (p :: rest).filter (fun q => decide (q.1 ≤ t)) = [] := by
          rw [List.filter_eq_nil_iff]
          intro a ha
          rcases List.mem_cons.mp ha with h | h
          · subst h
            simpa using not_le.mpr hp
          · simpa using not_le.mpr (lt_of_lt_of_le hp (hhead a h))
        rw [hfilter]
        rfl
      · rw [if_neg hp]
        have hple : p.1 ≤ t := not_lt.mp hp
        rw [ih p.2 htail]
        have hfc : (p :: rest).filter (fun q => decide (q.1 ≤ t)) =
            p :: rest.filter (fun q => decide (q.1 ≤ t)) := by
          simp [List.filter_cons, hple]
        rw [hfc]
        cases hfr : rest.filter (fun q => decide (q.1 ≤ t)) with
        | nil => rfl
        | cons q qs =>
            rw [List.getLast?_cons_cons]
            cases hgl : (q :: qs).getLast? with
            | none => exact absurd (List.getLast?_eq_none_iff.mp hgl) (by simp)
            | some r => rfl

/-- C8: the rainfall-rate query returns the constant rate when time-varying
rainfall is disabled or the schedule is empty; on a sorted stored schedule
it returns the rate of the last entry whose time is at most `t`, and the
first entry's rate when every entry lies strictly in the future; on the
stored schedule `[(0, 0), (60, 1e-5), (120, 0)]` the queries at
`t = 0, 30, 60, 119, 120, 200` yield `0, 0, 1e-5, 1e-5, 0, 0`. -/
theorem rainfall_rate_query :
    (∀ (rate t : α) (sched : List (α × α)),
        getCurrentRainfallRate false rate sched t = rate) ∧
    (∀ (useTV : Bool) (rate t : α), getCurrentRainfallRate useTV rate [] t = rate) ∧
    (∀ (rate t : α) (sched : List (α × α)) (p : α × α),
        List.Pairwise (@schedLE α _) sched →
        (sched.filter fun q => decide (q.1 ≤ t)).getLast? = some p →
        getCurrentRainfallRate true rate sched t = p.2) ∧
    (∀ (rate t : α) (sched : List (α × α)) (p : α × α),
        sched.head? = some p → (∀ q ∈ sched, t < q.1) →
        getCurrentRainfallRate true rate sched t = p.2) ∧
    (∀ rate : α,
        getCurrentRainfallRate true rate [(0, 0), (60, 1 / 100000), (120, 0)] 0 = 0 ∧
        getCurrentRainfallRate true rate [(0, 0), (60, 1 / 100000), (120, 0)] 30 = 0 ∧
        getCurrentRainfallRate true rate [(0, 0), (60, 1 / 100000), (120, 0)] 60 =
          1 / 100000 ∧
        getCurrentRainfallRate true rate [(0, 0), (60, 1 / 100000), (120, 0)] 119 =
          1 / 100000 ∧
        getCurrentRainfallRate true rate [(0, 0), (60, 1 / 100000), (120, 0)] 120 = 0 ∧
        getCurrentRainfallRate true rate [(0, 0), (60, 1 / 100000), (120, 0)] 200 = 0) := by
  have hconst : ∀ (rate t : α) (sched : List (α × α)),
      getCurrentRainfallRate false rate sched t = rate := by
    intro rate t sched
    cases sched <;> rfl
  have hempty : ∀ (useTV : Bool) (rate t : α),
      getCurrentRainfallRate useTV rate [] t = rate := by
    intro useTV rate t
    cases useTV <;> rfl
  refine ⟨hconst, hempty, ?_, ?_, ?_⟩
  · intro rate t sched p hsort hlast
    cases sched with
    | nil => simp at hlast
    | cons q rest =>
        show rateLoop t q.2 (q :: rest) = p.2
        rw [rateLoop_eq t (q :: rest) q.2 hsort, hlast]
  · intro rate t sched p hhead hfut
    cases sched with
    | nil => simp at hhead
    | cons q rest =>
        have hq : q = p := by simpa using hhead
        subst hq
        show rateLoop t q.2 (q :: rest) = q.2
        unfold rateLoop
        rw [if_pos (hfut q (List.mem_cons_self q rest))]
  · intro rate
    refine ⟨?_, ?_, ?_, ?_, ?_, ?_⟩ <;>
      · show rateLoop _ _ _ = _
        norm_num [rateLoop]

theorem rainfall_rate_query_witness :
    getCurrentRainfallRate true (7 : ℚ) [(0, 2), (60, 5)] 70 = 5 ∧
    getCurrentRainfallRate true (7 : ℚ) [(10, 3), (20, 4)] 4 = 3 :=
  ⟨(@rainfall_rate_query ℚ _ _).2.2.1 7 70 [(0, 2), (60, 5)] (60, 5)
      (by decide) (by decide),
   (@rainfall_rate_query ℚ _ _).2.2.2.1 7 4 [(10, 3), (20, 4)] (10, 3)
      (by decide) (by decide)⟩

theorem rowMajor_eq_nil {nx ny : ℤ} (h : nx ≤ 0 ∨ ny ≤ 0) : rowMajor nx ny = [] := by
  rcases h with h | h
  · simp [rowMajor, Int.toNat_of_nonpos h]
  · have hny : ny.toNat = 0 := Int.toNat_of_nonpos h
    simp [rowMajor, hny]

theorem boundaryCells_pos_dims {nx ny : ℤ} {dem : ℤ → ℤ → α}
    (hbc : boundaryCells nx ny dem ≠ []) : 0 < nx ∧ 0 < ny := by
  by_contra hcon
  rw [not_and_or, not_lt, not_lt] at hcon
  refine hbc ?_
  unfold boundaryCells
  rw [rowMajor_eq_nil hcon]
  rfl

/-- C3 (amended): on a grid with at least one valid boundary cell,
automatic percentile-based outlet selection always produces at least one
outlet and never more than `max(1, min(50, ⌊0.1 · |boundary|⌋))` outlets.
The unamended cap `min(50, ⌊0.1 · |boundary|⌋)` fails whenever the
boundary has fewer than 10 valid cells (see the counterexample): the
source clamps the outlet count to at least 1 after applying both caps. -/
theorem percentile_outlet_cardinality (nx ny : ℤ) (dem : ℤ → ℤ → α) (p : α)
    (hbc : boundaryCells nx ny dem ≠ []) :
    1 ≤ (computeOutletCellsByPercentile nx ny dem p).length ∧
    ((computeOutletCellsByPercentile nx ny dem p).length : ℤ) ≤
      max 1 (min 50 (cppTrunc (((boundaryCells nx ny dem).length : α) * (1 / 10)))) := by
  obtain ⟨hnx, hny⟩ := boundaryCells_pos_dims hbc
  have hB : 1 ≤ (boundaryCells nx ny dem).length := List.length_pos.mpr hbc
  unfold computeOutletCellsByPercentile
  rw [if_neg (by omega : ¬ (nx ≤ 0 ∨ ny ≤ 0))]
  dsimp only
  rw [if_neg hbc, List.length_map, List.length_take, List.length_insertionSort]
  constructor
  · have h1 : (1 : ℤ) ≤
        max 1 (min (max 1 (cppTrunc (p * ((boundaryCells nx ny dem).length : α))))
          (min (cppTrunc (((boundaryCells nx ny dem).length : α) * (1 / 10))) 50)) :=
      le_max_left 1 _
    omega
  · have h2 :
        max 1 (min (max 1 (cppTrunc (p * ((boundaryCells nx ny dem).length : α))))
            (min (cppTrunc (((boundaryCells nx ny dem).length : α) * (1 / 10))) 50)) ≤
          max 1 (min 50 (cppTrunc (((boundaryCells nx ny dem).length : α) * (1 / 10)))) := by
      refine max_le_max (le_refl 1) ?_
      rw [min_comm 50]
      exact min_le_right _ _
    omega

theorem percentile_outlet_cardinality_witness :
    1 ≤ (computeOutletCellsByPercentile 2 2 (fun _ _ => (0 : ℚ)) (1 / 10)).length ∧
    ((computeOutletCellsByPercentile 2 2 (fun _ _ => (0 : ℚ)) (1 / 10)).length : ℤ) ≤
      max 1 (min 50 (cppTrunc (((boundaryCells 2 2 (fun _ _ => (0 : ℚ))).length : ℚ) *
        (1 / 10)))) :=
  percentile_outlet_cardinality 2 2 (fun _ _ => (0 : ℚ)) (1 / 10) (by decide)

theorem percentile_outlet_cardinality_counterexample :
    (computeOutletCellsByPercentile 2 2 (fun _ _ => (0 : ℚ)) (1 / 2)).length = 1 ∧
    min 50 (cppTrunc (((boundaryCells 2 2 (fun _ _ => (0 : ℚ))).length : ℚ) * (1 / 10)))
      = 0 := by
  constructor
  · with_unfolding_all rfl
  · with_unfolding_all rfl

/-- C4 (amended): manual outlet selection keeps exactly the candidates
whose coordinates are in bounds — the elevation grid is never consulted,
so no-data cells are kept, and duplicates are kept in input order without
deduplication — converts them to 1-D indices, and falls back to
percentile-based selection with the stored default percentile exactly when
every candidate is out of bounds.  The unamended claim fails because the
source filters neither no-data cells nor duplicates (see the
counterexample). -/
theorem manual_outlet_selection (e : Engine α) (cells : List (ℤ × ℤ))
    (hne : cells ≠ []) (hnx : 0 < e.nx) (hny : 0 < e.ny) :
    (cells.filter (fun q => decide (0 ≤ q.1 ∧ q.1 < e.nx ∧ 0 ≤ q.2 ∧ q.2 < e.ny)) ≠ [] →
      setManualOutletCells e cells =
        { e with manualOutletCells := cells, useManualOutlets := true,
                 outletCells :=
                   (cells.filter
                       (fun q => decide (0 ≤ q.1 ∧ q.1 < e.nx ∧ 0 ≤ q.2 ∧ q.2 < e.ny))).map
                     (fun q => q.1 * e.ny + q.2) }) ∧
    (cells.filter (fun q => decide (0 ≤ q.1 ∧ q.1 < e.nx ∧ 0 ≤ q.2 ∧ q.2 < e.ny)) = [] →
      setManualOutletCells e cells =
        { e with manualOutletCells := cells, useManualOutlets := false,
                 outletCells :=
                   computeOutletCellsByPercentile e.nx e.ny e.dem e.outletPercentile }) := by
  have hguard : ¬ (cells = [] ∨ e.nx ≤ 0 ∨ e.ny ≤ 0) := by
    push_neg
    exact ⟨hne, by omega, by omega⟩
  constructor
  · intro hk
    unfold setManualOutletCells
    rw [if_neg hguard]
    dsimp only
    rw [if_neg (fun hmap => hk (List.map_eq_nil.mp hmap))]
  · intro hk
    unfold setManualOutletCells
    rw [if_neg hguard]
    dsimp only
    rw [if_pos (by rw [hk]; rfl)]
    rfl

theorem manual_outlet_selection_witness :
    setManualOutletCells engineNoData [(1, 1)] =
      { engineNoData with manualOutletCells := [(1, 1)], useManualOutlets := true,
                          outletCells := [3] } := by
  have h := (manual_outlet_selection engineNoData [(1, 1)] (by decide) (by decide)
    (by decide)).1 (by decide)
  rw [h]
  rfl

theorem manual_outlet_selection_counterexample :
    (setManualOutletCells engineNoData [(0, 0), (0, 0)]).outletCells = [0, 0] ∧
    engineNoData.dem 0 0 ≤ -999998 := by
  constructor
  · decide
  · decide

/-- C5: evaluation of the bounded depression-filling loop on a flat 3 × 3
grid with every elevation 10.  Contrary to the claim — and to the source's
own comment, which calls a cell a depression when "all neighbors are
higher" — the code only rejects a cell when some neighbour is strictly
lower, so on a flat grid the interior cell counts as a depression: the
pass lowers it from 10 to 9.99 and the loop runs all three allowed
iterations instead of terminating after one. -/
theorem flat_grid_fill_changes_grid :
    (fillDepressions 3 3 (fun _ _ => (10 : ℚ))).2 = 3 ∧
    (fillDepressions 3 3 (fun _ _ => (10 : ℚ))).1 1 1 = 999 / 100 ∧
    ¬ ((999 : ℚ) / 100 = 10) := by
  refine ⟨?_, ?_, by norm_num⟩
  · with_unfolding_all rfl
  · with_unfolding_all rfl

theorem engineDrop_stepRate : stepRate engineDrop = 0 := rfl

theorem engineDrop_dem (i j : ℤ) : engineDrop.dem i j = 0 := rfl

theorem engineDrop_res : engineDrop.resolution = 1 := rfl

theorem engineDrop_dt : engineDrop.dt = 1 := rfl

theorem engineDrop_nman : engineDrop.n_manning = 3 / 100 := rfl

theorem engineDrop_min : engineDrop.min_depth = 1 / 100000 := rfl

theorem engineDrop_dem_ok (i j : ℤ) : ¬ engineDrop.dem i j ≤ -999998 := by
  rw [engineDrop_dem]
  norm_num

theorem engineDrop_dem_gt (i j : ℤ) : -999998 < engineDrop.dem i j := by
  rw [engineDrop_dem]
  norm_num

theorem hDrop_off (i j : ℤ) (hij : ¬ (i = 5 ∧ j = 5)) : hDrop i j = 0 := by
  rw [hDrop]
  exact if_neg hij

theorem engineDrop_forcing :
    applyForcing engineDrop (stepRate engineDrop) = hDrop := by
  funext i j
  rw [engineDrop_stepRate]
  unfold applyForcing
  split_ifs with h1 h2
  · exact absurd h2 (engineDrop_dem_ok i j)
  · show max 0 (engineDrop.h i j + (0 - engineDrop.Ks) * engineDrop.dt) = hDrop i j
    have hK : engineDrop.Ks = 0 := rfl
    have hdt : engineDrop.dt = 1 := rfl
    have hh : engineDrop.h = hDrop := rfl
    rw [hK, hdt, hh]
    by_cases hc : i = 5 ∧ j = 5
    · rw [hDrop, if_pos hc]
      norm_num
    · rw [hDrop]
      rw [if_neg hc]
      norm_num
  · rfl

theorem qOut_engineDrop_offcenter (i j : ℤ) (hij : ¬ (i = 5 ∧ j = 5)) (k : Fin 4) :
    qOut engineDrop hDrop i j k = 0 :=
  qOut_eq_zero_of_h_eq_zero engineDrop hDrop i j (by rw [hDrop]; exact if_neg hij) k

theorem qTotal_engineDrop_offcenter (i j : ℤ) (hij : ¬ (i = 5 ∧ j = 5)) :
    qTotal engineDrop hDrop i j = 0 :=
  Finset.sum_eq_zero fun k _ => qOut_engineDrop_offcenter i j hij k

theorem hDrop_center : hDrop 5 5 = 1 / 10 := by
  rw [hDrop]
  norm_num

theorem qOut_formula (e : Engine ℝ) (hg : ℤ → ℤ → ℝ) (i j : ℤ) (k : Fin 4)
    (h1 : inGrid e.nx e.ny i j) (h2 : ¬ e.dem i j ≤ -999998)
    (h3 : ¬ hg i j < e.min_depth)
    (h4 : inGrid e.nx e.ny (i + di4 k) (j + dj4 k))
    (h5 : ¬ e.dem (i + di4 k) (j + dj4 k) ≤ -999998)
    (h6 : 0 < hg i j + e.dem i j -
      (hg (i + di4 k) (j + dj4 k) + e.dem (i + di4 k) (j + dj4 k))) :
    qOut e hg i j k =
      hg i j * e.resolution * hg i j ^ ((2 : ℝ) / 3) *
        Real.sqrt ((hg i j + e.dem i j -
          (hg (i + di4 k) (j + dj4 k) + e.dem (i + di4 k) (j + dj4 k))) / e.resolution) /
        e.n_manning := by
  simp only [qOut]
  rw [if_neg (not_not_intro h1), if_neg h2, if_neg h3,
    if_neg (not_or.mpr ⟨not_not_intro h4, h5⟩), if_pos h6]

theorem qOut_engineDrop_center (k : Fin 4) : qOut engineDrop hDrop 5 5 k = qC := by
  have hnb : hDrop (5 + di4 k) (5 + dj4 k) = 0 := by
    fin_cases k <;> exact hDrop_off _ _ (by decide)
  have h4 : inGrid engineDrop.nx engineDrop.ny (5 + di4 k) (5 + dj4 k) := by
    fin_cases k <;> decide
  rw [qOut_formula engineDrop hDrop 5 5 k (by decide) (engineDrop_dem_ok 5 5)
    (by rw [hDrop_center, engineDrop_min]; norm_num) h4 (engineDrop_dem_ok _ _)
    (by rw [hDrop_center, hnb, engineDrop_dem 5 5, engineDrop_dem (5 + di4 k) (5 + dj4 k)]
        norm_num)]
  rw [hDrop_center, hnb, engineDrop_dem 5 5, engineDrop_dem (5 + di4 k) (5 + dj4 k),
    engineDrop_res, engineDrop_nman]
  unfold qC
  norm_num

theorem qTotal_engineDrop_center : qTotal engineDrop hDrop 5 5 = 4 * qC := by
  unfold qTotal
  rw [Fin.sum_univ_four, qOut_engineDrop_center 0, qOut_engineDrop_center 1,
    qOut_engineDrop_center 2, qOut_engineDrop_center 3]
  ring

theorem qC_pos : 0 < qC := by
  unfold qC
  have h1 : (0 : ℝ) < (1 / 10 : ℝ) ^ ((2 : ℝ) / 3) :=
    Real.rpow_pos_of_pos (by norm_num) _
  have h2 : (0 : ℝ) < Real.sqrt (1 / 10 / 1) :=
    Real.sqrt_pos.mpr (by norm_num)
  positivity

theorem qC_gt : (1 : ℝ) / 40 < qC := by
  have h1 : Real.sqrt ((1 / 10 : ℝ) / 1) = (1 / 10 : ℝ) ^ ((1 : ℝ) / 2) := by
    rw [div_one, Real.sqrt_eq_rpow]
  have hq : qC = (1 / 10 : ℝ) ^ ((13 : ℝ) / 6) / (3 / 100) := by
    unfold qC
    rw [h1, show ((13 : ℝ) / 6) = 1 + (2 : ℝ) / 3 + (1 : ℝ) / 2 by norm_num,
      Real.rpow_add (by norm_num), Real.rpow_add (by norm_num), Real.rpow_one]
    ring
  have h3 : (1 / 10 : ℝ) ^ (((3 : ℕ) : ℝ)) < (1 / 10 : ℝ) ^ ((13 : ℝ) / 6) :=
    Real.rpow_lt_rpow_of_exponent_gt (by norm_num) (by norm_num) (by norm_num)
  have h4 : (1 / 10 : ℝ) ^ (((3 : ℕ) : ℝ)) = 1 / 1000 := by
    rw [Real.rpow_natCast]
    norm_num
  rw [hq]
  rw [h4] at h3
  have h5 : qC * 0 = 0 := by ring
  rw [div_eq_mul_inv]
  nlinarith [h3]

theorem cFactor_engineDrop_center :
    cFactor engineDrop hDrop 5 5 = 1 / 10 / (4 * qC) := by
  unfold cFactor
  rw [qTotal_engineDrop_center]
  have hres : engineDrop.resolution = 1 := rfl
  have hdt : engineDrop.dt = 1 := rfl
  rw [hres, hdt, hDrop_center, if_pos]
  · norm_num
  · constructor
    · have := qC_gt
      nlinarith
    · linarith [qC_pos]

theorem cFactor_engineDrop_offcenter (i j : ℤ) (hij : ¬ (i = 5 ∧ j = 5)) :
    cFactor engineDrop hDrop i j = 1 := by
  unfold cFactor
  rw [if_neg]
  intro hcon
  rw [qTotal_engineDrop_offcenter i j hij] at hcon
  exact lt_irrefl 0 hcon.2

theorem inflow_engineDrop_center (k : Fin 4) :
    inflowTerm engineDrop hDrop 5 5 k = 0 := by
  unfold inflowTerm
  split_ifs with hcond
  · rw [qOut_engineDrop_offcenter]
    · ring
    · fin_cases k <;> decide
  · rfl

theorem deltaH_engineDrop_center : deltaH engineDrop hDrop 5 5 = -(1 / 10) := by
  unfold deltaH
  rw [if_neg (engineDrop_dem_ok _ _)]
  rw [Fin.sum_univ_four, inflow_engineDrop_center 0, inflow_engineDrop_center 1,
    inflow_engineDrop_center 2, inflow_engineDrop_center 3,
    qTotal_engineDrop_center, cFactor_engineDrop_center]
  have hres : engineDrop.resolution = 1 := rfl
  have hdt : engineDrop.dt = 1 := rfl
  rw [hres, hdt]
  have hq : qC ≠ 0 := ne_of_gt qC_pos
  field_simp
  ring

theorem inflow_engineDrop_side (i j : ℤ) (k : Fin 4)
    (hsrc : ¬ (i - di4 k = 5 ∧ j - dj4 k = 5)) :
    inflowTerm engineDrop hDrop i j k = 0 := by
  unfold inflowTerm
  split_ifs with hcond
  · rw [qOut_engineDrop_offcenter _ _ hsrc]
    ring
  · rfl

theorem inflow_engineDrop_from_center (i j : ℤ) (k : Fin 4)
    (hi : i - di4 k = 5) (hj : j - dj4 k = 5) :
    inflowTerm engineDrop hDrop i j k = qC * (1 / 10 / (4 * qC)) := by
  unfold inflowTerm
  rw [if_pos]
  · rw [hi, hj, qOut_engineDrop_center, cFactor_engineDrop_center]
    have hdt : engineDrop.dt = 1 := rfl
    rw [hdt]
    ring
  · rw [hi, hj]
    exact ⟨by decide, engineDrop_dem_gt _ _⟩

theorem deltaH_engineDrop_n45 : deltaH engineDrop hDrop 4 5 = 1 / 40 := by
  unfold deltaH
  rw [if_neg (engineDrop_dem_ok _ _)]
  rw [Fin.sum_univ_four,
    inflow_engineDrop_from_center 4 5 0 (by decide) (by decide),
    inflow_engineDrop_side 4 5 1 (by decide), inflow_engineDrop_side 4 5 2 (by decide),
    inflow_engineDrop_side 4 5 3 (by decide),
    qTotal_engineDrop_offcenter 4 5 (by decide),
    cFactor_engineDrop_offcenter 4 5 (by decide)]
  have hres : engineDrop.resolution = 1 := rfl
  have hdt : engineDrop.dt = 1 := rfl
  rw [hres, hdt]
  have hq : qC ≠ 0 := ne_of_gt qC_pos
  field_simp
  ring

theorem deltaH_engineDrop_n65 : deltaH engineDrop hDrop 6 5 = 1 / 40 := by
  unfold deltaH
  rw [if_neg (engineDrop_dem_ok _ _)]
  rw [Fin.sum_univ_four,
    inflow_engineDrop_from_center 6 5 2 (by decide) (by decide),
    inflow_engineDrop_side 6 5 0 (by decide), inflow_engineDrop_side 6 5 1 (by decide),
    inflow_engineDrop_side 6 5 3 (by decide),
    qTotal_engineDrop_offcenter 6 5 (by decide),
    cFactor_engineDrop_offcenter 6 5 (by decide)]
  have hres : engineDrop.resolution = 1 := rfl
  have hdt : engineDrop.dt = 1 := rfl
  rw [hres, hdt]
  have hq : qC ≠ 0 := ne_of_gt qC_pos
  field_simp
  ring

theorem deltaH_engineDrop_n54 : deltaH engineDrop hDrop 5 4 = 1 / 40 := by
  unfold deltaH
  rw [if_neg (engineDrop_dem_ok _ _)]
  rw [Fin.sum_univ_four,
    inflow_engineDrop_from_center 5 4 3 (by decide) (by decide),
    inflow_engineDrop_side 5 4 0 (by decide), inflow_engineDrop_side 5 4 1 (by decide),
    inflow_engineDrop_side 5 4 2 (by decide),
    qTotal_engineDrop_offcenter 5 4 (by decide),
    cFactor_engineDrop_offcenter 5 4 (by decide)]
  have hres : engineDrop.resolution = 1 := rfl
  have hdt : engineDrop.dt = 1 := rfl
  rw [hres, hdt]
  have hq : qC ≠ 0 := ne_of_gt qC_pos
  field_simp
  ring

theorem deltaH_engineDrop_n56 : deltaH engineDrop hDrop 5 6 = 1 / 40 := by
  unfold deltaH
  rw [if_neg (engineDrop_dem_ok _ _)]
  rw [Fin.sum_univ_four,
    inflow_engineDrop_from_center 5 6 1 (by decide) (by decide),
    inflow_engineDrop_side 5 6 0 (by decide), inflow_engineDrop_side 5 6 2 (by decide),
    inflow_engineDrop_side 5 6 3 (by decide),
    qTotal_engineDrop_offcenter 5 6 (by decide),
    cFactor_engineDrop_offcenter 5 6 (by decide)]
  have hres : engineDrop.resolution = 1 := rfl
  have hdt : engineDrop.dt = 1 := rfl
  rw [hres, hdt]
  have hq : qC ≠ 0 := ne_of_gt qC_pos
  field_simp
  ring

theorem deltaH_engineDrop_far (i j : ℤ) (hc : ¬ (i = 5 ∧ j = 5))
    (hn : ¬ ((i = 4 ∧ j = 5) ∨ (i = 6 ∧ j = 5) ∨ (i = 5 ∧ j = 4) ∨ (i = 5 ∧ j = 6))) :
    deltaH engineDrop hDrop i j = 0 := by
  unfold deltaH
  rw [if_neg (engineDrop_dem_ok _ _)]
  have hterm : ∀ k : Fin 4, inflowTerm engineDrop hDrop i j k = 0 := by
    intro k
    refine inflow_engineDrop_side i j k ?_
    rintro ⟨hi, hj⟩
    refine hn ?_
    fin_cases k <;> simp only [di4, dj4] at hi hj <;> omega
  rw [Fin.sum_univ_four, hterm 0, hterm 1, hterm 2, hterm 3,
    qTotal_engineDrop_offcenter i j hc]
  ring

theorem hAfterFlux_engineDrop (i j : ℤ) :
    hAfterFlux engineDrop hDrop i j = hAfter i j := by
  by_cases hc : i = 5 ∧ j = 5
  · obtain ⟨hi, hj⟩ := hc
    subst hi; subst hj
    unfold hAfterFlux
    rw [if_pos ⟨by decide, engineDrop_dem_gt _ _⟩, hDrop_center,
      deltaH_engineDrop_center, hAfter]
    norm_num
  · by_cases hn : (i = 4 ∧ j = 5) ∨ (i = 6 ∧ j = 5) ∨ (i = 5 ∧ j = 4) ∨ (i = 5 ∧ j = 6)
    · rcases hn with ⟨hi, hj⟩ | ⟨hi, hj⟩ | ⟨hi, hj⟩ | ⟨hi, hj⟩ <;> subst hi <;> subst hj
      · unfold hAfterFlux
        rw [if_pos ⟨by decide, engineDrop_dem_gt _ _⟩, hDrop_off 4 5 (by decide),
          deltaH_engineDrop_n45, hAfter]
        norm_num
      · unfold hAfterFlux
        rw [if_pos ⟨by decide, engineDrop_dem_gt _ _⟩, hDrop_off 6 5 (by decide),
          deltaH_engineDrop_n65, hAfter]
        norm_num
      · unfold hAfterFlux
        rw [if_pos ⟨by decide, engineDrop_dem_gt _ _⟩, hDrop_off 5 4 (by decide),
          deltaH_engineDrop_n54, hAfter]
        norm_num
      · unfold hAfterFlux
        rw [if_pos ⟨by decide, engineDrop_dem_gt _ _⟩, hDrop_off 5 6 (by decide),
          deltaH_engineDrop_n56, hAfter]
        norm_num
    · unfold hAfterFlux
      split_ifs with hg
      · rw [hDrop_off i j hc, deltaH_engineDrop_far i j hc hn, hAfter]
        rw [if_neg hn]
        norm_num
      · rw [hDrop_off i j hc, hAfter, if_neg hn]

theorem drainStep_dry (e : Engine ℝ) (F : ℝ) (st : DrainState ℝ) (idx : ℤ)
    (hdry : st.h (idx / e.ny) (idx % e.ny) ≤ e.min_depth) :
    drainStep e F st idx = st := by
  simp only [drainStep]
  split_ifs with h1 h2
  · exact absurd h2 (not_lt.mpr hdry)
  · rfl
  · rfl

theorem engineDrop_outlet_dry (idx : ℤ) (hidx : idx = 0 ∨ idx = 1 ∨ idx = 2) :
    hAfterFlux engineDrop hDrop (idx / engineDrop.ny) (idx % engineDrop.ny) ≤
      engineDrop.min_depth := by
  rcases hidx with h | h | h <;> subst h <;>
  · rw [hAfterFlux_engineDrop, hAfter, if_neg (by decide), engineDrop_min]
    norm_num

theorem stepDrain_engineDrop :
    stepDrain engineDrop =
      { h := hAfterFlux engineDrop hDrop, outflow := 0,
        perOutlet := engineDrop.perOutletDrainage } := by
  unfold stepDrain
  rw [engineDrop_forcing]
  rw [show engineDrop.outletCells = [0, 1, 2] from rfl]
  simp only [List.foldl_cons, List.foldl_nil]
  rw [drainStep_dry engineDrop _ _ 0 (engineDrop_outlet_dry 0 (by decide)),
    drainStep_dry engineDrop _ _ 1 (engineDrop_outlet_dry 1 (by decide)),
    drainStep_dry engineDrop _ _ 2 (engineDrop_outlet_dry 2 (by decide))]

theorem step_engineDrop_h (i j : ℤ) :
    (stepSimulation engineDrop).h i j = hAfter i j := by
  have hc : ¬ (engineDrop.nx ≤ 0 ∨ engineDrop.ny ≤ 0) := by decide
  simp only [stepSimulation, if_neg hc]
  show (stepDrain engineDrop).h i j = hAfter i j
  rw [stepDrain_engineDrop]
  exact hAfterFlux_engineDrop i j

/-- C6 counterexample: contrary to the claim, the single central raindrop
of scenario S2 does not leave `h` unchanged: the center cell's head (0.1)
exceeds its neighbours' heads (0), so its outflow is positive and one step
empties it. -/
theorem raindrop_counterexample :
    (stepSimulation engineDrop).h 5 5 = 0 ∧ ¬ (engineDrop.h 5 5 = 0) := by
  constructor
  · rw [step_engineDrop_h, hAfter, if_neg (by decide)]
  · show ¬ (hDrop 5 5 = 0)
    rw [hDrop_center]
    norm_num

/-- C6 (amended): on the S2 grid (10 × 10, resolution 1, flat, `h` zero
except `h[5][5] = 0.1`) one step with `r = 0`, `Ks = 0` computes a
strictly positive total outflow at the center cell — its head exceeds all
four neighbours' — and zero total outflow everywhere else; the
mass-conservative scaling discharges exactly the center's stored volume,
so after the step the center depth is 0, each 4-neighbour holds depth
0.025, and every other cell is unchanged. -/
theorem raindrop_spreads :
    0 < qTotal engineDrop (applyForcing engineDrop (stepRate engineDrop)) 5 5 ∧
    (∀ i j, ¬ (i = 5 ∧ j = 5) →
      qTotal engineDrop (applyForcing engineDrop (stepRate engineDrop)) i j = 0) ∧
    (stepSimulation engineDrop).h 5 5 = 0 ∧
    (stepSimulation engineDrop).h 4 5 = 1 / 40 ∧
    (stepSimulation engineDrop).h 6 5 = 1 / 40 ∧
    (stepSimulation engineDrop).h 5 4 = 1 / 40 ∧
    (stepSimulation engineDrop).h 5 6 = 1 / 40 ∧
    (∀ i j, ¬ ((i = 5 ∧ j = 5) ∨ (i = 4 ∧ j = 5) ∨ (i = 6 ∧ j = 5) ∨
        (i = 5 ∧ j = 4) ∨ (i = 5 ∧ j = 6)) →
      (stepSimulation engineDrop).h i j = engineDrop.h i j) := by
  rw [engineDrop_forcing]
  refine ⟨?_, ?_, ?_, ?_, ?_, ?_, ?_, ?_⟩
  · rw [qTotal_engineDrop_center]
    linarith [qC_pos]
  · exact fun i j hij => qTotal_engineDrop_offcenter i j hij
  · rw [step_engineDrop_h, hAfter, if_neg (by decide)]
  · rw [step_engineDrop_h, hAfter, if_pos (by decide)]
  · rw [step_engineDrop_h, hAfter, if_pos (by decide)]
  · rw [step_engineDrop_h, hAfter, if_pos (by decide)]
  · rw [step_engineDrop_h, hAfter, if_pos (by decide)]
  · intro i j hfar
    rw [step_engineDrop_h, hAfter]
    show (if _ then (1 : ℝ) / 40 else 0) = hDrop i j
    rw [if_neg (fun hmem => hfar (Or.inr hmem)),
      hDrop_off i j (fun hmem => hfar (Or.inl hmem))]

theorem raindrop_spreads_witness :
    qTotal engineDrop (applyForcing engineDrop (stepRate engineDrop)) 0 0 = 0 ∧
    (stepSimulation engineDrop).h 0 0 = engineDrop.h 0 0 :=
  ⟨raindrop_spreads.2.1 0 0 (by decide),
   raindrop_spreads.2.2.2.2.2.2.2 0 0 (by decide)⟩

end HydroSpec
